import Mathlib

/-!
Verification of the VRF reconciliation script `src/conf_mode/vrf.py`.

The script is embedded shallowly:

* The external configuration store (`vyos.config.Config`) and the interface
  tree are modelled by a `Store` record holding exactly the observations the
  script makes: existence of the `vrf` base node, existence of `bind-to-all`,
  the active and effective VRF name lists, the per-VRF `table` /
  effective-`table` / `description` values, and the `interfaces` tree.
* `get_config`, `verify` and `apply` are translated line by line.  `apply`
  is given trace semantics: it takes the kernel's directory-existence probe
  `isdir : String → Bool` (for `os.path.isdir`) and returns the ordered list
  of external effects (`_cmd` invocations and file writes) it performs.
* Python peculiarities are preserved: the default description is the one
  character NUL string `'\0'`, and the removal loop in `apply` interpolates
  the whole removal *dict* into the f-strings (`f'/sys/class/net/{vrf_name}'`
  where `vrf_name` is a dict), which is modelled by `pyStrRemove`, the
  `str()` rendering of that dict.
-/

namespace Vrf

/-- Per-VRF view of the configuration store at level `vrf name <NAME>`:
`table` is the active value of `['table']` (`none` when `conf.exists(['table'])`
is false), `effTable` the value of `conf.return_effective_value(['table'])`
(`none` models Python `None`), `description` the active description value. -/
structure VrfNodeCfg where
  table : Option String
  effTable : Option String
  description : Option String

/-- Observations of the external configuration store and interface subsystem
made by the script: existence of the `['vrf']` base node and of
`['bind-to-all']`, `conf.list_effective_nodes(['vrf','name'])`,
`conf.list_nodes(['vrf','name'])`, the per-name node view, and the
`interfaces` section as type → interface name → optional `vrf` attribute. -/
structure Store where
  vrfExists : Bool
  bindToAllExists : Bool
  effNames : List String
  actNames : List String
  node : String → VrfNodeCfg
  tree : List (String × List (String × Option String))

/-- One entry of `vrf_config['vrf_add']`, the dict built at lines 81-87 of
the source (fields in the source's key order). -/
structure VrfInst where
  description : String
  members : List String
  name : String
  table : String
  table_mod : Bool
deriving DecidableEq

/-- One entry of `vrf_config['vrf_remove']` after the rewrite at lines
110-125 of the source: a dict with keys `members` and `name`. -/
structure VrfRemoveInst where
  members : List String
  name : String
deriving DecidableEq

/-- The `vrf_config` dictionary (`default_config_data` gives the defaults;
`deleted` and `vrf_existing` are initialised but never used afterwards). -/
structure VrfConfig where
  bind_to_all : Nat
  deleted : Bool
  vrf_add : List VrfInst
  vrf_existing : List String
  vrf_remove : List VrfRemoveInst
deriving DecidableEq

deriving instance DecidableEq for Except

/-- Python truthiness of an optional string (`if eff_table`):
`None` and `''` are falsy. -/
def pyTruthy : Option String → Bool
  | none => false
  | some s => s != ""

/-- Python `str()` of a list of strings, e.g. `['eth0', 'eth1']`. -/
def pyStrList (xs : List String) : String :=
  "[" ++ String.intercalate ", " (xs.map (fun s => "'" ++ s ++ "'")) ++ "]"

/-- Python `str()` of a `vrf_remove` dict, with its insertion key order
`members`, `name`: for example `\x7b'members': [], 'name': 'BLUE'\x7d`. -/
def pyStrRemove (v : VrfRemoveInst) : String :=
  "\x7b'members': " ++ pyStrList v.members ++ ", 'name': '" ++ v.name ++ "'\x7d"

/-- The default description sentinel `'\0'`: a one-character string holding
the NUL character (not the empty string). -/
def nulStr : String := String.mk [Char.ofNat 0]

/-- Embedding of `interfaces_with_vrf(match)` (source lines 44-56): scan the
interfaces tree and collect every interface name whose `vrf` attribute equals
`m`, in tree order. -/
def interfaces_with_vrf (tree : List (String × List (String × Option String)))
    (m : String) : List String :=
  tree.flatMap (fun sec =>
    sec.2.filterMap (fun i =>
      match i.2 with
      | some v => if v = m then some i.1 else none
      | none => none))

/-- Modelled from the spec: `vyos.configdict.list_diff` is imported by the
source but its code is not under `src/`.  The spec defines the removal set as
`previousNames − names(declared)`, i.e. the elements of the first list not
contained in the second, in order. -/
def list_diff (first second : List String) : List String :=
  first.filter (fun x => ! second.contains x)

/-- Embedding of the body of the `for name in conf.list_nodes(...)` loop of
`get_config` (source lines 80-106): build one `vrf_add` entry. -/
def buildInst (st : Store) (name : String) : VrfInst :=
  let nd := st.node name
  let tbl : String × Bool :=
    match nd.table with
    | some act => (act, pyTruthy nd.effTable && decide (nd.effTable ≠ some act))
    | none => ("", false)
  { description :=
      match nd.description with
      | some d => d
      | none => nulStr,
    members := interfaces_with_vrf st.tree name,
    name := name,
    table := tbl.1,
    table_mod := tbl.2 }

/-- Embedding of `get_config()` (source lines 58-126).  When the `['vrf']`
base node does not exist, every effective VRF is marked for removal;
otherwise `bind-to-all` is read, `vrf_remove` is the effective-minus-active
name difference and each active VRF yields a `vrf_add` entry.  Finally each
removal name is replaced by a dict carrying its member interfaces. -/
def get_config (st : Store) : VrfConfig :=
  if st.vrfExists = false then
    { bind_to_all := 0, deleted := false, vrf_add := [], vrf_existing := [],
      vrf_remove := st.effNames.map (fun n =>
        { members := interfaces_with_vrf st.tree n, name := n }) }
  else
    { bind_to_all := if st.bindToAllExists then 1 else 0,
      deleted := false,
      vrf_add := st.actNames.map (buildInst st),
      vrf_existing := [],
      vrf_remove := (list_diff st.effNames st.actNames).map (fun n =>
        { members := interfaces_with_vrf st.tree n, name := n }) }

/-- Message of the `ConfigError` raised at source line 132. -/
def memberMsg (n : String) : String :=
  "VRF \"" ++ n ++ "\" can not be deleted as it has active members"

/-- Message of the `ConfigError` raised at source line 137 (a fixed string:
it does not mention the VRF's name). -/
def tableMsg : String :=
  "VRF routing table id modification is not possible"

/-- Embedding of the first loop of `verify` (source lines 130-132): raise on
the first removal entry that still has members. -/
def verifyRemove : List VrfRemoveInst → Except String Unit
  | [] => Except.ok ()
  | v :: rest =>
    if v.members.length > 0 then Except.error (memberMsg v.name)
    else verifyRemove rest

/-- Embedding of the second loop of `verify` (source lines 135-137): raise on
the first added entry whose `table_mod` flag is set. -/
def verifyAdd : List VrfInst → Except String Unit
  | [] => Except.ok ()
  | v :: rest =>
    if v.table_mod then Except.error tableMsg
    else verifyAdd rest

/-- Embedding of `verify(vrf_config)` (source lines 128-141): the removal
check runs first, then the table-modification check; `None` is returned on
success.  The function only inspects `vrf_config`; it performs no mutation. -/
def verify (cfg : VrfConfig) : Except String Unit :=
  match verifyRemove cfg.vrf_remove with
  | Except.error e => Except.error e
  | Except.ok () => verifyAdd cfg.vrf_add

/-- One observable effect of `apply`: a `_cmd` shell invocation or a write of
`content` to `path`. -/
inductive Eff where
  | cmd : String → Eff
  | write : String → String → Eff
deriving DecidableEq

/-- The f-string `f'sysctl -wq net.ipv4.tcp_l3mdev_accept={bind_all}'`. -/
def sysctlTcp (b : Nat) : String :=
  "sysctl -wq net.ipv4.tcp_l3mdev_accept=" ++ toString b

/-- The f-string `f'sysctl -wq net.ipv4.udp_l3mdev_accept={bind_all}'`. -/
def sysctlUdp (b : Nat) : String :=
  "sysctl -wq net.ipv4.udp_l3mdev_accept=" ++ toString b

/-- The sysfs path `f'/sys/class/net/{s}'`. -/
def netPath (s : String) : String := "/sys/class/net/" ++ s

/-- Body of the removal loop of `apply` (source lines 154-156).  The loop
variable is a whole removal *dict*, and the source interpolates it directly
into the probe path and the delete command, so both strings contain the
`str()` rendering of the dict, not the bare VRF name. -/
def removeStep (isdir : String → Bool) (v : VrfRemoveInst) : List Eff :=
  if isdir (netPath (pyStrRemove v)) then
    [Eff.cmd ("ip link delete dev " ++ pyStrRemove v)]
  else []

/-- Body of the addition loop of `apply` (source lines 158-172): when no
device of this name exists, create it, bring it up and install the four
policy rules; in every case write the description to the device's `ifalias`
attribute. -/
def addStep (isdir : String → Bool) (v : VrfInst) : List Eff :=
  (if isdir (netPath v.name) then []
   else
    [Eff.cmd ("ip link add " ++ v.name ++ " type vrf table " ++ v.table),
     Eff.cmd ("ip link set dev " ++ v.name ++ " up"),
     Eff.cmd ("ip -4 rule add oif " ++ v.name ++ " lookup " ++ v.table),
     Eff.cmd ("ip -4 rule add iif " ++ v.name ++ " lookup " ++ v.table),
     Eff.cmd ("ip -6 rule add oif " ++ v.name ++ " lookup " ++ v.table),
     Eff.cmd ("ip -6 rule add iif " ++ v.name ++ " lookup " ++ v.table)])
  ++ [Eff.write (netPath v.name ++ "/ifalias") v.description]

/-- Embedding of `apply(vrf_config)` (source lines 146-174) as the ordered
trace of its effects: the two sysctl writes, then the removal loop, then the
addition loop, effects being appended as the imperative code emits them. -/
def apply (isdir : String → Bool) (cfg : VrfConfig) : List Eff :=
  let acc := [Eff.cmd (sysctlTcp cfg.bind_to_all), Eff.cmd (sysctlUdp cfg.bind_to_all)]
  let acc := cfg.vrf_remove.foldl (fun a v => a ++ removeStep isdir v) acc
  cfg.vrf_add.foldl (fun a v => a ++ addStep isdir v) acc

/-- Substring test on character lists: `pat` occurs somewhere in `s`. -/
def containsSub (s pat : List Char) : Bool :=
  pat.isPrefixOf s ||
  (match s with
   | [] => false
   | _ :: t => containsSub t pat)

/-- Substring test on strings: does `s` contain `pat`?  Used to state that an
error message does (or does not) name a VRF. -/
def strContainsSub (s pat : String) : Bool :=
  containsSub s.data pat.data

/-- Is an effect a `_cmd` shell invocation (as opposed to a file write)? -/
def isCmdEff : Eff → Bool
  | Eff.cmd _ => true
  | Eff.write _ _ => false

/-- Scenario D store: the `['vrf']` base node was deleted, VRF `BLUE` is
still effective and no interface references it. -/
def stScenarioD : Store :=
  { vrfExists := false, bindToAllExists := false,
    effNames := ["BLUE"], actNames := [],
    node := fun _ => { table := none, effTable := none, description := none },
    tree := [] }

/-- Kernel state in which exactly the device directory
`/sys/class/net/BLUE` exists. -/
def isdirOnlyBlue : String → Bool := fun p => p == "/sys/class/net/BLUE"

/-- Scenario B store: the `['vrf']` base node was deleted, VRF `BLUE` is
still effective and interface `eth0` still references it. -/
def stScenarioB : Store :=
  { vrfExists := false, bindToAllExists := false,
    effNames := ["BLUE"], actNames := [],
    node := fun _ => { table := none, effTable := none, description := none },
    tree := [("ethernet", [("eth0", some "BLUE")])] }

/-- Scenario C store: VRF `GREEN` is declared with table `200` while its
previously-effective table is `100`. -/
def stScenarioC : Store :=
  { vrfExists := true, bindToAllExists := false,
    effNames := ["GREEN"], actNames := ["GREEN"],
    node := fun _ => { table := some "200", effTable := some "100", description := none },
    tree := [] }

/-- Store with VRF `RED` declared (table `100`, no description) while `BLUE`
is effective but no longer declared. -/
def stScenarioW : Store :=
  { vrfExists := true, bindToAllExists := false,
    effNames := ["RED", "BLUE"], actNames := ["RED"],
    node := fun _ => { table := some "100", effTable := none, description := none },
    tree := [] }

/-- Kernel state in which exactly the device directory
`/sys/class/net/RED` exists. -/
def isdirOnlyRed : String → Bool := fun p => p == "/sys/class/net/RED"

/-- Store with VRF `X` declared without a `table` attribute while an
effective table `100` for `X` still exists. -/
def stNoTable : Store :=
  { vrfExists := true, bindToAllExists := false,
    effNames := [], actNames := ["X"],
    node := fun _ => { table := none, effTable := some "100", description := none },
    tree := [] }

theorem buildInst_name (st : Store) (n : String) : (buildInst st n).name = n := rfl

theorem foldl_append_flatMap {α β : Type} (f : α → List β) (init : List β)
    (l : List α) :
    l.foldl (fun a v => a ++ f v) init = init ++ l.flatMap f := by
  induction l generalizing init with
  | nil => simp
  | cons x xs ih => simp [ih, List.append_assoc]

theorem apply_decomp (isdir : String → Bool) (cfg : VrfConfig) :
    apply isdir cfg =
      [Eff.cmd (sysctlTcp cfg.bind_to_all), Eff.cmd (sysctlUdp cfg.bind_to_all)]
        ++ cfg.vrf_remove.flatMap (removeStep isdir)
        ++ cfg.vrf_add.flatMap (addStep isdir) := by
  simp [apply, foldl_append_flatMap, List.append_assoc]

theorem containsSub_of_isPrefixOf (s pat : List Char)
    (h : pat.isPrefixOf s = true) : containsSub s pat = true := by
  cases s with
  | nil => simp [containsSub, h]
  | cons c t => simp [containsSub, h]

theorem containsSub_append (a p b : List Char) :
    containsSub (a ++ (p ++ b)) p = true := by
  induction a with
  | nil =>
    rw [List.nil_append]
    exact containsSub_of_isPrefixOf _ _ (by simp [List.isPrefixOf_iff_prefix])
  | cons c t ih =>
    rw [List.cons_append]
    simp [containsSub, ih]

theorem memberMsg_contains (n : String) :
    strContainsSub (memberMsg n) n = true := by
  unfold strContainsSub memberMsg
  have h : ("VRF \"" ++ n ++ "\" can not be deleted as it has active members").data
      = "VRF \"".data
        ++ (n.data ++ ("\" can not be deleted as it has active members").data) := by
    simp [String.data_append, List.append_assoc]
  rw [h]
  exact containsSub_append _ _ _

theorem membersEmpty_of_not_pos {v : VrfRemoveInst}
    (hv : ¬ v.members.length > 0) : v.members = [] := by
  cases hm : v.members with
  | nil => rfl
  | cons a b => exact absurd (by simp [hm]) hv

theorem verifyRemove_ok_iff (l : List VrfRemoveInst) :
    verifyRemove l = Except.ok () ↔ ∀ e ∈ l, e.members = [] := by
  induction l with
  | nil => simp [verifyRemove]
  | cons v t ih =>
    by_cases hv : v.members.length > 0
    · have hne : v.members ≠ [] := List.length_pos.mp hv
      simp [verifyRemove, hv]
      intro hcontra
      exact absurd hcontra hne
    · have hv0 : v.members = [] := membersEmpty_of_not_pos hv
      simp [verifyRemove, hv, ih, hv0]

theorem verifyRemove_first_err (l : List VrfRemoveInst)
    (h : ∃ e ∈ l, e.members ≠ []) :
    ∃ e ∈ l, e.members ≠ [] ∧ verifyRemove l = Except.error (memberMsg e.name) := by
  induction l with
  | nil => simp at h
  | cons v t ih =>
    by_cases hv : v.members.length > 0
    · exact ⟨v, List.mem_cons_self v t, List.length_pos.mp hv,
        by simp [verifyRemove, hv]⟩
    · have hv0 : v.members = [] := membersEmpty_of_not_pos hv
      have h' : ∃ e ∈ t, e.members ≠ [] := by
        rcases h with ⟨e, he, hne⟩
        rcases List.mem_cons.mp he with rfl | htl
        · exact absurd hv0 hne
        · exact ⟨e, htl, hne⟩
      rcases ih h' with ⟨e, he, hne, herr⟩
      exact ⟨e, List.mem_cons_of_mem v he, hne,
        by simpa [verifyRemove, hv] using herr⟩

theorem verifyAdd_err (l : List VrfInst)
    (h : ∃ v ∈ l, v.table_mod = true) :
    verifyAdd l = Except.error tableMsg := by
  induction l with
  | nil => simp at h
  | cons v t ih =>
    by_cases hv : v.table_mod = true
    · simp [verifyAdd, hv]
    · rcases h with ⟨w, hw, hm⟩
      rcases List.mem_cons.mp hw with rfl | htl
      · exact absurd hm hv
      · simpa [verifyAdd, hv] using ih ⟨w, htl, hm⟩

theorem verify_of_removeErr {cfg : VrfConfig} {m : String}
    (h : verifyRemove cfg.vrf_remove = Except.error m) :
    verify cfg = Except.error m := by
  unfold verify
  rw [h]

theorem verify_of_removeOk {cfg : VrfConfig}
    (h : verifyRemove cfg.vrf_remove = Except.ok ()) :
    verify cfg = verifyAdd cfg.vrf_add := by
  unfold verify
  rw [h]

theorem flatMap_addStep_existing (isdir : String → Bool) (l : List VrfInst)
    (h : ∀ v ∈ l, isdir (netPath v.name) = true) :
    l.flatMap (addStep isdir) =
      l.map (fun v => Eff.write (netPath v.name ++ "/ifalias") v.description) := by
  induction l with
  | nil => simp
  | cons v t ih =>
    have hv := h v (List.mem_cons_self v t)
    simp [addStep, hv, ih (fun w hw => h w (List.mem_cons_of_mem v hw))]

/-- C1: the spec says the removal step deletes the network device bearing the
removal entry's VRF name whenever such a device exists.  The code iterates
over removal *dicts* and interpolates the whole dict into the probe path and
delete command, so with device `/sys/class/net/BLUE` present (scenario D) the
probe misses and no delete command is ever issued. -/
theorem remove_loop_misses_existing_device :
    isdirOnlyBlue (netPath "BLUE") = true ∧
    (get_config stScenarioD).vrf_remove = [{ members := [], name := "BLUE" }] ∧
    apply isdirOnlyBlue (get_config stScenarioD) =
      [Eff.cmd (sysctlTcp 0), Eff.cmd (sysctlUdp 0)] ∧
    removeStep isdirOnlyBlue { members := [], name := "BLUE" } = [] ∧
    netPath (pyStrRemove { members := [], name := "BLUE" }) ≠ netPath "BLUE" := by
  decide

/-- C2: validation raises the member error, which contains the offending
VRF's name, exactly when some removal entry has non-empty members; a
successful validation guarantees every removal entry has empty members.
`verify` is a pure function of the configuration: it mutates nothing. -/
theorem verify_member_error_iff (cfg : VrfConfig) :
    ((∃ e ∈ cfg.vrf_remove, e.members ≠ []) ↔
      (∃ e ∈ cfg.vrf_remove, e.members ≠ [] ∧
        verify cfg = Except.error (memberMsg e.name) ∧
        strContainsSub (memberMsg e.name) e.name = true))
    ∧ (verify cfg = Except.ok () → ∀ e ∈ cfg.vrf_remove, e.members = []) := by
  constructor
  · constructor
    · intro h
      rcases verifyRemove_first_err cfg.vrf_remove h with ⟨e, he, hne, herr⟩
      exact ⟨e, he, hne, verify_of_removeErr herr, memberMsg_contains e.name⟩
    · rintro ⟨e, he, hne, -, -⟩
      exact ⟨e, he, hne⟩
  · intro hok
    have hvr : verifyRemove cfg.vrf_remove = Except.ok () := by
      cases hvr : verifyRemove cfg.vrf_remove with
      | error m =>
        rw [verify_of_removeErr hvr] at hok
        exact absurd hok (by simp)
      | ok u => cases u; rfl
    exact (verifyRemove_ok_iff cfg.vrf_remove).mp hvr

theorem verify_member_error_iff_check :
    verify (get_config stScenarioB) = Except.error (memberMsg "BLUE") := by
  have h := (verify_member_error_iff (get_config stScenarioB)).1.mp
    ⟨{ members := ["eth0"], name := "BLUE" }, by decide, by decide⟩
  rcases h with ⟨e, he, -, herr, -⟩
  have hrm : (get_config stScenarioB).vrf_remove
      = [{ members := ["eth0"], name := "BLUE" }] := by decide
  rw [hrm] at he
  have he' : e = { members := ["eth0"], name := "BLUE" } := by
    simpa using he
  rw [he'] at herr
  exact herr

/-- C3: the spec says a table-ID-change failure names the offending VRF.  In
scenario C validation does fail, but with the fixed message
`VRF routing table id modification is not possible`, which does not contain
the VRF name `GREEN`. -/
theorem tableMsg_not_naming_offender :
    verify (get_config stScenarioC) = Except.error tableMsg ∧
    strContainsSub tableMsg "GREEN" = false := by
  decide

/-- C3 (amended): whenever validation fails because some declared VRF's
table ID differs from its previously-effective one (and no removal entry has
members, so the failure is due to the table check), the raised error is the
fixed message `tableMsg`, which does not include the VRF name. -/
theorem verify_table_error_fixed_message (cfg : VrfConfig)
    (h1 : ∀ e ∈ cfg.vrf_remove, e.members = [])
    (h2 : ∃ v ∈ cfg.vrf_add, v.table_mod = true) :
    verify cfg = Except.error tableMsg := by
  have hvr : verifyRemove cfg.vrf_remove = Except.ok () :=
    (verifyRemove_ok_iff cfg.vrf_remove).mpr h1
  rw [verify_of_removeOk hvr]
  exact verifyAdd_err cfg.vrf_add h2

theorem verify_table_error_fixed_message_check :
    verify (get_config stScenarioC) = Except.error tableMsg :=
  verify_table_error_fixed_message (get_config stScenarioC)
    (by decide) (by decide)

/-- C4: the claim's marker condition (previously-effective table exists,
non-empty, and differs from the now-declared table) fails on a VRF whose
`table` attribute is not declared: the effective table `100` exists and
differs from the produced (empty) table value, yet `table_mod` is `false`
because the code only computes the marker inside `conf.exists(['table'])`. -/
theorem table_mod_missing_active_table :
    ¬ (((buildInst stNoTable "X").table_mod = true) ↔
        (pyTruthy ((stNoTable.node "X").effTable) = true ∧
         (stNoTable.node "X").effTable ≠ some ((buildInst stNoTable "X").table))) := by
  decide

/-- C4 (amended): `table_mod` is set iff the `table` attribute is declared
in the active configuration, a previously-effective table value exists and
is non-empty, and it differs from the declared value. -/
theorem table_mod_iff (st : Store) (n : String) :
    (buildInst st n).table_mod = true ↔
      ((st.node n).table ≠ none ∧ pyTruthy (st.node n).effTable = true ∧
       (st.node n).effTable ≠ (st.node n).table) := by
  cases h : (st.node n).table with
  | none => simp [buildInst, h]
  | some act => simp [buildInst, h, Bool.and_eq_true, decide_eq_true_eq]

/-- C5: no VRF is simultaneously scheduled for creation and deletion: every
`vrf_add` entry's name differs from every `vrf_remove` entry's name, in both
branches of `get_config`. -/
theorem add_remove_disjoint (st : Store) :
    ∀ a ∈ (get_config st).vrf_add, ∀ r ∈ (get_config st).vrf_remove,
      a.name ≠ r.name := by
  intro a ha r hr
  unfold get_config at ha hr
  by_cases h : st.vrfExists = false
  · simp [h] at ha
  · simp [h] at ha hr
    rcases ha with ⟨n, hn, rfl⟩
    rcases hr with ⟨m, hm, rfl⟩
    have hm' : ¬ (m ∈ st.actNames) := by
      unfold list_diff at hm
      have h2 := (List.mem_filter.mp hm).2
      simpa using h2
    show n ≠ m
    intro heq
    subst heq
    exact hm' hn

theorem add_remove_disjoint_check :
    (buildInst stScenarioW "RED").name
      ≠ ({ members := [], name := "BLUE" } : VrfRemoveInst).name :=
  add_remove_disjoint stScenarioW (buildInst stScenarioW "RED") (by decide)
    { members := [], name := "BLUE" } (by decide)

/-- C6: the spec says an undeclared description defaults to the empty
string.  The code's default is the one-character NUL string `'\0'`, which is
not the empty string, and that NUL string is what the addition step writes
to the device's `ifalias` attribute. -/
theorem default_description_not_empty :
    (buildInst stScenarioW "RED").description ≠ "" ∧
    (buildInst stScenarioW "RED").description = nulStr ∧
    Eff.write (netPath "RED" ++ "/ifalias") nulStr
      ∈ addStep (fun _ => false) (buildInst stScenarioW "RED") := by
  decide

/-- C6 (amended): a VRF with no declared description gets the one-character
NUL sentinel `'\0'` (distinct from both the empty string and "not set"), and
this sentinel is what the addition step writes to the `ifalias` attribute. -/
theorem default_description_nul (st : Store) (n : String) (isdir : String → Bool)
    (h : (st.node n).description = none) :
    (buildInst st n).description = nulStr ∧
    Eff.write (netPath n ++ "/ifalias") nulStr ∈ addStep isdir (buildInst st n) := by
  have hd : (buildInst st n).description = nulStr := by simp [buildInst, h]
  refine ⟨hd, ?_⟩
  unfold addStep
  rw [buildInst_name, hd]
  simp

theorem default_description_nul_check :
    (buildInst stScenarioW "RED").description = nulStr ∧
    Eff.write (netPath "RED" ++ "/ifalias") nulStr
      ∈ addStep isdirOnlyRed (buildInst stScenarioW "RED") :=
  default_description_nul stScenarioW "RED" isdirOnlyRed rfl

/-- C7: the trace of `apply` is always the two sysctl policy commands (with
value `bind_to_all`), then the removal-loop effects, then the addition-loop
effects; in particular its first two effects are the policy writes even when
both loops are empty, and no addition effect precedes a removal effect or a
policy write. -/
theorem apply_effect_order (isdir : String → Bool) (cfg : VrfConfig) :
    apply isdir cfg =
      [Eff.cmd (sysctlTcp cfg.bind_to_all), Eff.cmd (sysctlUdp cfg.bind_to_all)]
        ++ cfg.vrf_remove.flatMap (removeStep isdir)
        ++ cfg.vrf_add.flatMap (addStep isdir)
    ∧ (apply isdir cfg).take 2 =
        [Eff.cmd (sysctlTcp cfg.bind_to_all), Eff.cmd (sysctlUdp cfg.bind_to_all)] := by
  refine ⟨apply_decomp isdir cfg, ?_⟩
  rw [apply_decomp]
  rfl

/-- C8: the spec counts "five" skipped structural operations, but the
existence-gated block holds six commands: device create, set-up, and four
policy-rule installs. -/
theorem addStep_six_structural_ops :
    ((addStep (fun _ => false) (buildInst stScenarioW "RED")).filter isCmdEff).length = 6 ∧
    ((addStep (fun _ => false) (buildInst stScenarioW "RED")).filter isCmdEff).length ≠ 5 := by
  decide

/-- C8 (amended): when every `vrf_add` entry's device already exists, the
whole trace of `apply` is the two policy commands, the removal effects, and
one description write per added VRF — all six structural commands are
skipped, so a second run over existing devices only re-executes the
description writes. -/
theorem apply_existing_devices_only_alias (isdir : String → Bool) (cfg : VrfConfig)
    (h : ∀ v ∈ cfg.vrf_add, isdir (netPath v.name) = true) :
    apply isdir cfg =
      [Eff.cmd (sysctlTcp cfg.bind_to_all), Eff.cmd (sysctlUdp cfg.bind_to_all)]
        ++ cfg.vrf_remove.flatMap (removeStep isdir)
        ++ cfg.vrf_add.map (fun v => Eff.write (netPath v.name ++ "/ifalias") v.description) := by
  rw [apply_decomp, flatMap_addStep_existing isdir cfg.vrf_add h]

theorem apply_existing_devices_only_alias_check :
    apply isdirOnlyRed (get_config stScenarioW) =
      [Eff.cmd (sysctlTcp (get_config stScenarioW).bind_to_all),
       Eff.cmd (sysctlUdp (get_config stScenarioW).bind_to_all)]
        ++ (get_config stScenarioW).vrf_remove.flatMap (removeStep isdirOnlyRed)
        ++ (get_config stScenarioW).vrf_add.map
            (fun v => Eff.write (netPath v.name ++ "/ifalias") v.description) :=
  apply_existing_devices_only_alias isdirOnlyRed (get_config stScenarioW) (by decide)

/-- C9: when the `['vrf']` base node is absent, the computed configuration
has `bind_to_all = 0`, an empty `vrf_add`, and `vrf_remove` carrying exactly
the previously-effective VRF names; the first two effects of `apply` then
force both binding tunables to `0`. -/
theorem vrf_node_absent_config (st : Store) (isdir : String → Bool)
    (h : st.vrfExists = false) :
    (get_config st).bind_to_all = 0 ∧
    (get_config st).vrf_add = [] ∧
    (get_config st).vrf_remove.map (fun v => v.name) = st.effNames ∧
    (apply isdir (get_config st)).take 2 =
      [Eff.cmd (sysctlTcp 0), Eff.cmd (sysctlUdp 0)] := by
  have h0 : (get_config st).bind_to_all = 0 := by simp [get_config, h]
  refine ⟨h0, by simp [get_config, h], ?_, ?_⟩
  · simp [get_config, h, Function.comp_def]
  · rw [apply_decomp, h0]
    rfl

theorem vrf_node_absent_config_check :
    (get_config stScenarioD).bind_to_all = 0 ∧
    (get_config stScenarioD).vrf_add = [] ∧
    (get_config stScenarioD).vrf_remove.map (fun v => v.name) = stScenarioD.effNames ∧
    (apply isdirOnlyBlue (get_config stScenarioD)).take 2 =
      [Eff.cmd (sysctlTcp 0), Eff.cmd (sysctlUdp 0)] :=
  vrf_node_absent_config stScenarioD isdirOnlyBlue rfl

/-- C10: a declared VRF with no `table` attribute yields a `vrf_add` entry
with empty table and `table_mod = false`, the table check of validation
accepts it, and when its device does not exist the addition step's first
command is the device creation with the empty table ID (the command string
ends in `table `). -/
theorem no_table_defaults (st : Store) (n : String)
    (hv : st.vrfExists = true) (hn : n ∈ st.actNames)
    (ht : (st.node n).table = none) :
    buildInst st n ∈ (get_config st).vrf_add ∧
    (buildInst st n).table = "" ∧
    (buildInst st n).table_mod = false ∧
    verifyAdd [buildInst st n] = Except.ok () ∧
    (addStep (fun _ => false) (buildInst st n)).head? =
      some (Eff.cmd ("ip link add " ++ n ++ " type vrf table ")) := by
  have htab : (buildInst st n).table = "" := by simp [buildInst, ht]
  have hmod : (buildInst st n).table_mod = false := by simp [buildInst, ht]
  refine ⟨?_, htab, hmod, ?_, ?_⟩
  · simp [get_config, hv]
    exact ⟨n, hn, rfl⟩
  · simp [verifyAdd, hmod]
  · unfold addStep
    rw [buildInst_name, htab]
    simp

theorem no_table_defaults_check :
    buildInst stNoTable "X" ∈ (get_config stNoTable).vrf_add ∧
    (buildInst stNoTable "X").table = "" ∧
    (buildInst stNoTable "X").table_mod = false ∧
    verifyAdd [buildInst stNoTable "X"] = Except.ok () ∧
    (addStep (fun _ => false) (buildInst stNoTable "X")).head? =
      some (Eff.cmd ("ip link add " ++ "X" ++ " type vrf table ")) :=
  no_table_defaults stNoTable "X" rfl (by decide) rfl

end Vrf
